import Mathlib

/-
  Verification development for the mondaySeasons repository.

  The scripts share a small core of pure logic: parsing a launch-date cell
  (Excel serial number or one of several calendar formats), subtracting a
  lead time in weeks to obtain a due date, classifying a source group title,
  and expanding a record into one subitem per task template.

  Strings are modelled as lists of character codes (`PyStr`).  Dates are
  modelled as proleptic-Gregorian ordinals (day 1 = 0001-01-01), the same
  representation CPython's `datetime` uses internally; the supported range
  is ordinal 1 through 3652059 (9999-12-31), and `timedelta` day magnitudes
  are bounded by 999999999, so arithmetic leaving that range raises — this
  is modelled with `Except Unit`, where `Except.error ()` marks an uncaught
  Python exception.
-/

namespace MondaySeasons

/-- Decidable equality for `Except`, used to evaluate the models on
concrete inputs. -/
instance instDecEqExcept {ε α : Type} [DecidableEq ε] [DecidableEq α] :
    DecidableEq (Except ε α) := fun a b =>
  match a, b with
  | .error x, .error y =>
    if h : x = y then isTrue (congrArg Except.error h)
    else isFalse (fun hh => h (by injection hh))
  | .error _, .ok _ => isFalse (fun hh => Except.noConfusion hh)
  | .ok _, .error _ => isFalse (fun hh => Except.noConfusion hh)
  | .ok x, .ok y =>
    if h : x = y then isTrue (congrArg Except.ok h)
    else isFalse (fun hh => h (by injection hh))

/-! ## Python string primitives -/

/-- Strings as lists of Unicode code points, the observable content of a
Python `str`. -/
abbrev PyStr := List Nat

/-- Code-point list of a Lean string literal (used to write concrete
Python strings). -/
def strToCodes (s : String) : PyStr := s.data.map Char.toNat

/-- Characters removed by Python `str.strip()` (ASCII whitespace). -/
def isSpaceC (c : Nat) : Bool :=
  c == 32 || c == 9 || c == 10 || c == 13 || c == 11 || c == 12

/-- ASCII decimal digit test, the digit class of `str.isdigit` on ASCII
input. -/
def isDigitC (c : Nat) : Bool := 48 ≤ c && c ≤ 57

/-- Python `str.strip()`: remove leading and trailing whitespace. -/
def pystrip (s : PyStr) : PyStr :=
  ((s.dropWhile isSpaceC).reverse.dropWhile isSpaceC).reverse

/-- Python `str.isdigit()`: non-empty and every character a digit. -/
def py_isdigit (s : PyStr) : Bool := !s.isEmpty && s.all isDigitC

/-- Python `int(s)` on a digit-only string. -/
def digitsVal (s : PyStr) : Nat := s.foldl (fun a c => 10 * a + (c - 48)) 0

/-- Python `str.lower()` on one character (ASCII range). -/
def lowerC (c : Nat) : Nat := if 65 ≤ c ∧ c ≤ 90 then c + 32 else c

/-- Python `str.lower()`. -/
def pylower (s : PyStr) : PyStr := s.map lowerC

/-- Python substring containment, `needle in hay`. -/
def occursIn (needle : PyStr) : PyStr → Bool
  | [] => needle.isEmpty
  | c :: rest => needle.isPrefixOf (c :: rest) || occursIn needle rest

/-! ## Proleptic Gregorian calendar (CPython `datetime` internals) -/

/-- Gregorian leap-year rule used by `datetime`. -/
def isLeap (y : Nat) : Bool := y % 4 == 0 && (y % 100 != 0 || y % 400 == 0)

/-- Length of month `m` of year `y`. -/
def daysInMonth (y m : Nat) : Nat :=
  if m = 2 then (if isLeap y then 29 else 28)
  else if m = 4 ∨ m = 6 ∨ m = 9 ∨ m = 11 then 30 else 31

/-- Days in year `y` strictly before month `m`. -/
def daysBeforeMonth (y : Nat) : Nat → Nat
  | 0 => 0
  | 1 => 0
  | m + 2 => daysBeforeMonth y (m + 1) + daysInMonth y (m + 1)

/-- Days strictly before January 1 of year `y` (CPython `_days_before_year`). -/
def daysBeforeYear (y : Nat) : Nat :=
  (y - 1) * 365 + (y - 1) / 4 - (y - 1) / 100 + (y - 1) / 400

/-- Ordinal of the date `y-m-d`; ordinal 1 is 0001-01-01 (CPython
`_ymd2ord`). -/
def toOrdinal (y m d : Nat) : Nat := daysBeforeYear y + daysBeforeMonth y m + d

/-- Largest ordinal representable by `datetime` (9999-12-31). -/
def maxOrdinal : Nat := 3652059

/-- Largest day magnitude representable by `timedelta`. -/
def tdMaxDays : Nat := 999999999

/-- Ordinal back to `(year, month, day)` (civil-from-days algorithm). -/
def ord2ymd (n : Nat) : Nat × Nat × Nat :=
  let z := n + 305
  let era := z / 146097
  let doe := z % 146097
  let yoe := (doe - doe / 1460 + doe / 36524 - doe / 146096) / 365
  let y0 := yoe + era * 400
  let doy := doe - (365 * yoe + yoe / 4 - yoe / 100)
  let mp := (5 * doy + 2) / 153
  let d := doy - (153 * mp + 2) / 5 + 1
  let m := if mp < 10 then mp + 3 else mp - 9
  (if m ≤ 2 then y0 + 1 else y0, m, d)

/-- Two-digit zero-padded decimal rendering. -/
def pad2 (n : Nat) : PyStr := [48 + n / 10, 48 + n % 10]

/-- Four-digit zero-padded decimal rendering. -/
def pad4 (n : Nat) : PyStr :=
  [48 + n / 1000, 48 + n / 100 % 10, 48 + n / 10 % 10, 48 + n % 10]

/-- `strftime('%Y-%m-%d')` of the date with ordinal `n`. -/
def fmtDate (n : Nat) : PyStr :=
  let t := ord2ymd n
  pad4 t.1 ++ 45 :: (pad2 t.2.1 ++ 45 :: pad2 t.2.2)

/-! ## `datetime.strptime` for the formats the scripts use

Each format alternates bounded digit fields with literal separators, so
`strptime`'s regex behaves as greedy digit munching followed by range
validation in the `datetime` constructor.  A parse succeeds only if the
whole string is consumed. -/

/-- Greedily take up to `max` leading digit characters. -/
def readDigits : Nat → PyStr → PyStr × PyStr
  | 0, l => ([], l)
  | _ + 1, [] => ([], [])
  | k + 1, c :: rest =>
    if isDigitC c then
      let p := readDigits k rest
      (c :: p.1, p.2)
    else ([], c :: rest)

/-- One numeric field of a format: at least one and at most `maxd` digits. -/
def parseField (maxd : Nat) (s : PyStr) : Option (Nat × PyStr) :=
  if (readDigits maxd s).1.isEmpty then none
  else some (digitsVal (readDigits maxd s).1, (readDigits maxd s).2)

/-- A format token: a numeric field with a digit bound, or a literal
character. -/
inductive FTok
  | num : Nat → FTok
  | lit : Nat → FTok

/-- Run a token list over the input; succeed with the list of field values
only when the input is fully consumed. -/
def runToks : List FTok → PyStr → Option (List Nat)
  | [], [] => some []
  | [], _ :: _ => none
  | .lit c :: ts, l =>
    match l with
    | [] => none
    | x :: rest => if x = c then runToks ts rest else none
  | .num m :: ts, l =>
    match parseField m l with
    | none => none
    | some (v, rest) => (runToks ts rest).map (fun vs => v :: vs)

/-- Token list of `%Y-%m-%d`. -/
def fmtTokensYmd : List FTok := [.num 4, .lit 45, .num 2, .lit 45, .num 2]

/-- Token list of `%m/%d/%Y`. -/
def fmtTokensMdy : List FTok := [.num 2, .lit 47, .num 2, .lit 47, .num 4]

/-- Token list of `%d/%m/%Y`. -/
def fmtTokensDmy : List FTok := [.num 2, .lit 47, .num 2, .lit 47, .num 4]

/-- Token list of `%Y-%m-%d %H:%M:%S`. -/
def fmtTokensYmdHms : List FTok :=
  fmtTokensYmd ++ [.lit 32, .num 2, .lit 58, .num 2, .lit 58, .num 2]

/-- Range validation done by the `datetime` constructor; returns the
ordinal of the date. -/
def mkDate (y m d : Nat) : Option Nat :=
  if 1 ≤ y ∧ y ≤ 9999 ∧ 1 ≤ m ∧ m ≤ 12 ∧ 1 ≤ d ∧ d ≤ daysInMonth y m then
    some (toOrdinal y m d)
  else none

/-- `strptime(s, '%Y-%m-%d')`, date part only. -/
def tryYmd (s : PyStr) : Option Nat :=
  match runToks fmtTokensYmd s with
  | some [y, m, d] => mkDate y m d
  | _ => none

/-- `strptime(s, '%m/%d/%Y')`. -/
def tryMdy (s : PyStr) : Option Nat :=
  match runToks fmtTokensMdy s with
  | some [m, d, y] => mkDate y m d
  | _ => none

/-- `strptime(s, '%d/%m/%Y')`. -/
def tryDmy (s : PyStr) : Option Nat :=
  match runToks fmtTokensDmy s with
  | some [d, m, y] => mkDate y m d
  | _ => none

/-- `strptime(s, '%Y-%m-%d %H:%M:%S')`; the time of day is validated and
then discarded, since no script ever observes it. -/
def tryYmdHms (s : PyStr) : Option Nat :=
  match runToks fmtTokensYmdHms s with
  | some [y, m, d, hh, mi, ss] =>
    if hh ≤ 23 ∧ mi ≤ 59 ∧ ss ≤ 59 then mkDate y m d else none
  | _ => none

/-- Rendering of an ambiguous slash date with two-digit month/day fields
and a four-digit year, as in `"03/04/2025"`. -/
def slashStr (a b y : Nat) : PyStr := pad2 a ++ 47 :: (pad2 b ++ 47 :: pad4 y)

/-- The `for fmt in date_formats: try ... except ValueError: continue`
loop: first successful format wins. -/
def firstSuccess : List (PyStr → Option Nat) → PyStr → Option Nat
  | [], _ => none
  | f :: fs, s =>
    match f s with
    | some d => some d
    | none => firstSuccess fs s

/-! ## The per-script copies of `parse_launch_date`

Each copy: empty or whitespace-only input returns `None`; a digit-only raw
string is decoded as an Excel serial day count from the 1899-12-30 epoch
(the `timedelta` construction and the `datetime` addition raise
`OverflowError` outside their ranges, and that exception is not caught by
the surrounding `except ValueError`); otherwise the calendar formats are
tried in order on the stripped string. -/

/-- `MondayBoardDuplicator.parse_launch_date` from
duplicate_master_to_proddev.py (three formats). -/
def parse_launch_date_dup (s : PyStr) : Except Unit (Option Nat) :=
  if s.isEmpty || (pystrip s).isEmpty then .ok none
  else if py_isdigit s then
    if digitsVal s ≤ tdMaxDays then
      if toOrdinal 1899 12 30 + digitsVal s ≤ maxOrdinal then
        .ok (some (toOrdinal 1899 12 30 + digitsVal s))
      else .error ()
    else .error ()
  else .ok (firstSuccess [tryYmd, tryMdy, tryDmy] (pystrip s))

/-- `parse_launch_date` from generate_product_dev.py (three formats). -/
def parse_launch_date_gpd (s : PyStr) : Except Unit (Option Nat) :=
  if s.isEmpty || (pystrip s).isEmpty then .ok none
  else if py_isdigit s then
    if digitsVal s ≤ tdMaxDays then
      if toOrdinal 1899 12 30 + digitsVal s ≤ maxOrdinal then
        .ok (some (toOrdinal 1899 12 30 + digitsVal s))
      else .error ()
    else .error ()
  else .ok (firstSuccess [tryYmd, tryMdy, tryDmy] (pystrip s))

/-- `parse_launch_date` from scripts/add_subitems_to_monday.py (three
formats). -/
def parse_launch_date_add (s : PyStr) : Except Unit (Option Nat) :=
  if s.isEmpty || (pystrip s).isEmpty then .ok none
  else if py_isdigit s then
    if digitsVal s ≤ tdMaxDays then
      if toOrdinal 1899 12 30 + digitsVal s ≤ maxOrdinal then
        .ok (some (toOrdinal 1899 12 30 + digitsVal s))
      else .error ()
    else .error ()
  else .ok (firstSuccess [tryYmd, tryMdy, tryDmy] (pystrip s))

/-- `parse_launch_date` from generate_monday_boards.py (four formats; the
warning print does not affect the returned value). -/
def parse_launch_date_gmb (s : PyStr) : Except Unit (Option Nat) :=
  if s.isEmpty || (pystrip s).isEmpty then .ok none
  else if py_isdigit s then
    if digitsVal s ≤ tdMaxDays then
      if toOrdinal 1899 12 30 + digitsVal s ≤ maxOrdinal then
        .ok (some (toOrdinal 1899 12 30 + digitsVal s))
      else .error ()
    else .error ()
  else .ok (firstSuccess [tryYmd, tryMdy, tryDmy, tryYmdHms] (pystrip s))

/-- `MondaySubitemManager.parse_launch_date` from
scripts/monday_subitem_manager.py (four formats). -/
def parse_launch_date_msm (s : PyStr) : Except Unit (Option Nat) :=
  if s.isEmpty || (pystrip s).isEmpty then .ok none
  else if py_isdigit s then
    if digitsVal s ≤ tdMaxDays then
      if toOrdinal 1899 12 30 + digitsVal s ≤ maxOrdinal then
        .ok (some (toOrdinal 1899 12 30 + digitsVal s))
      else .error ()
    else .error ()
  else .ok (firstSuccess [tryYmd, tryMdy, tryDmy, tryYmdHms] (pystrip s))

/-- `calculate_due_date` (identical in every script that defines it):
`None` maps to `None`, otherwise subtract `7 * lead_time_weeks` days and
render `%Y-%m-%d`; subtraction below ordinal 1 or a `timedelta` beyond its
day bound raises. -/
def calculate_due_date (launch : Option Nat) (w : Nat) :
    Except Unit (Option PyStr) :=
  match launch with
  | none => .ok none
  | some d =>
    if 7 * w ≤ tdMaxDays then
      if 7 * w < d ∧ d - 7 * w ≤ maxOrdinal then
        .ok (some (fmtDate (d - 7 * w)))
      else .error ()
    else .error ()

/-! ## Group classification (duplicate_master_to_proddev.py, lines 330-340) -/

/-- Map a Master-board group title to the destination group name:
case-insensitive substring tests in a fixed order, defaulting to
"SS26 New Colors". -/
def classify_group (title : PyStr) : PyStr :=
  if occursIn (strToCodes "new colors") (pylower title) then
    strToCodes "SS26 New Colors"
  else if occursIn (strToCodes "new styles") (pylower title) then
    strToCodes "SS26 New Styles"
  else if occursIn (strToCodes "end of life") (pylower title) then
    strToCodes "End of Life Products"
  else strToCodes "SS26 New Colors"

/-! ## Schedule expansion (duplicate_master_to_proddev.py, lines 385-427) -/

/-- One entry of the `sub_items` configuration. -/
structure Template where
  task_name : PyStr
  lead_time_weeks : Nat
  descr : PyStr
  deriving Repr, DecidableEq

/-- The column values passed to `create_subitem` for one task. -/
structure SubitemSpec where
  name : PyStr
  status : PyStr
  date : Option PyStr
  deriving Repr, DecidableEq

/-- Loop body of the launch-date branch: one subitem per template with a
computed due date; an overflow in the date arithmetic propagates. -/
def build_subitems_go (d : Nat) : List Template → Except Unit (List SubitemSpec)
  | [] => .ok []
  | t :: rest =>
    match calculate_due_date (some d) t.lead_time_weeks with
    | .error e => .error e
    | .ok due =>
      match build_subitems_go d rest with
      | .error e => .error e
      | .ok rs =>
        let dateVal := match due with
          | some ds => if ds.isEmpty then none else some ds
          | none => none
        .ok (⟨t.task_name, strToCodes "Working on it", dateVal⟩ :: rs)

/-- Subitem expansion of one duplicated item: with a launch date each task
gets a due date; without one each task is created with status only. -/
def build_subitems (launch : Option Nat) (ts : List Template) :
    Except Unit (List SubitemSpec) :=
  match launch with
  | some d => build_subitems_go d ts
  | none => .ok (ts.map fun t => ⟨t.task_name, strToCodes "Working on it", none⟩)

/-! ## Launch-date lookup (duplicate_master_to_proddev.py, lines 377-383) -/

/-- Column-id test of the lookup loop: lowercased id contains "launch" or
"date". -/
def launch_col_match (cid : PyStr) : Bool :=
  occursIn (strToCodes "launch") (pylower cid) ||
    occursIn (strToCodes "date") (pylower cid)

/-- Scan the item's column values in order; the first matching-id column
whose text parses supplies the launch date, a raising parse propagates. -/
def find_launch_date : List (PyStr × PyStr) → Except Unit (Option Nat)
  | [] => .ok none
  | (cid, ctext) :: rest =>
    if launch_col_match cid then
      match parse_launch_date_dup ctext with
      | .error e => .error e
      | .ok (some d) => .ok (some d)
      | .ok none => find_launch_date rest
    else find_launch_date rest

/-- Modelled from the spec's description of the lookup: the first column,
in order, whose id matches and whose text parses to a date. -/
def specFirstLaunch (cols : List (PyStr × PyStr)) : Option Nat :=
  cols.findSome? fun p =>
    if launch_col_match p.1 then
      match parse_launch_date_dup p.2 with
      | .ok (some d) => some d
      | _ => none
    else none

/-! ## Column reconciliation and per-item pipeline
(duplicate_master_to_proddev.py, lines 284-298 and 321-427) -/

/-- A board column as returned by `get_board_columns`. -/
structure Column where
  id : PyStr
  title : PyStr
  deriving Repr, DecidableEq

/-- First column whose lowercased title contains "platform"
(lines 284-293, run independently per board). -/
def find_platform_col (cols : List Column) : Option Column :=
  cols.find? fun c => occursIn (strToCodes "platform") (pylower c.title)

/-- A Master-board item as consumed by the duplication loop. -/
structure MasterItem where
  name : PyStr
  group_title : PyStr
  column_values : List (PyStr × PyStr)
  deriving Repr, DecidableEq

/-- The data submitted for one duplicated item. -/
structure ItemPlan where
  group : PyStr
  name : PyStr
  columns : List (PyStr × PyStr)
  subitems : List SubitemSpec
  deriving Repr, DecidableEq

/-- Column-extraction loop (lines 344-358).  `mpc` is the Master board's
platform column id, if any.  When a column has non-empty text and id, the
code evaluates `master_platform_col['id']` unguarded; with no Master
platform column that subscript of `None` raises `TypeError`. -/
def extract_cols (mpc : Option PyStr) :
    List (PyStr × PyStr) → Option PyStr → List (PyStr × PyStr) →
    Except Unit (Option PyStr × List (PyStr × PyStr))
  | [], pv, acc => .ok (pv, acc)
  | (cid, ctext) :: rest, pv, acc =>
    let pv' := match mpc with
      | some mid => if cid = mid then some ctext else pv
      | none => pv
    if !ctext.isEmpty && !cid.isEmpty then
      match mpc with
      | none => .error ()
      | some mid =>
        if cid ≠ mid then extract_cols (some mid) rest pv' (acc ++ [(cid, ctext)])
        else extract_cols (some mid) rest pv' acc
    else extract_cols mpc rest pv' acc

/-- Per-item pipeline of `duplicate_master_to_proddev`: classify the
group, extract column values, carry the platform value over when both
platform columns exist, look up the launch date, and expand subitems. -/
def process_master_item (mpc ppc : Option PyStr) (item : MasterItem)
    (ts : List Template) : Except Unit ItemPlan :=
  match extract_cols mpc item.column_values none [] with
  | .error e => .error e
  | .ok (pv, cvs) =>
    match find_launch_date item.column_values with
    | .error e => .error e
    | .ok launch =>
      match build_subitems launch ts with
      | .error e => .error e
      | .ok subs =>
        .ok ⟨classify_group item.group_title, item.name,
          (match pv, ppc with
           | some p, some pid => if p.isEmpty then cvs else cvs ++ [(pid, p)]
           | _, _ => cvs), subs⟩

/-! ## Department CSV generation (generate_monday_boards.py, lines 85-127) -/

/-- The fields of one master CSV row that the generator reads. -/
structure InRow where
  item : PyStr
  style : PyStr
  color : PyStr
  priority : PyStr
  status : PyStr
  platform : PyStr
  launch : PyStr
  deriving Repr, DecidableEq

/-- One generated CSV row: either a main-item dict or a sub-item dict,
with the keys each dict carries in the script. -/
inductive GenRow
  | mainRow (item style color priority status platform launch : PyStr)
  | subRow (item status due descr : PyStr)
  deriving Repr, DecidableEq

/-- Sub-item rows of one record (lines 110-126). -/
def gen_sub_rows (ld : Nat) : List Template → Except Unit (List GenRow)
  | [] => .ok []
  | t :: rest =>
    match calculate_due_date (some ld) t.lead_time_weeks with
    | .error e => .error e
    | .ok due =>
      match gen_sub_rows ld rest with
      | .error e => .error e
      | .ok rs =>
        let dueField := match due with
          | some ds => if ds.isEmpty then [] else ds
          | none => []
        .ok (.subRow (32 :: 32 :: t.task_name) (strToCodes "Not Started")
          dueField t.descr :: rs)

/-- Rows contributed by one master record: rows with an empty item name
are skipped, and a record whose launch date does not parse is skipped
entirely (lines 87-95) — it contributes no rows at all. -/
def gen_rows_for_record (row : InRow) (subs : List Template) :
    Except Unit (List GenRow) :=
  if row.item.isEmpty then .ok []
  else
    match parse_launch_date_gmb row.launch with
    | .error e => .error e
    | .ok none => .ok []
    | .ok (some ld) =>
      match gen_sub_rows ld subs with
      | .error e => .error e
      | .ok rs =>
        .ok (.mainRow row.item row.style row.color row.priority row.status
          row.platform (fmtDate ld) :: rs)

/-! ## Helper lemmas -/

/-- Dropping by a predicate that holds nowhere drops nothing. -/
theorem dropWhile_eq_self_of_false {p : Nat → Bool} {s : PyStr}
    (h : ∀ c ∈ s, p c = false) : s.dropWhile p = s := by
  cases s with
  | nil => rfl
  | cons a l => simp [List.dropWhile_cons, h a (by simp)]

/-- Stripping a string with no whitespace characters is the identity. -/
theorem pystrip_eq_self {s : PyStr} (h : ∀ c ∈ s, isSpaceC c = false) :
    pystrip s = s := by
  unfold pystrip
  rw [dropWhile_eq_self_of_false h,
    dropWhile_eq_self_of_false (fun c hc => h c (List.mem_reverse.mp hc)),
    List.reverse_reverse]

/-- Codes 33 and above are not Python whitespace. -/
theorem isSpaceC_eq_false {c : Nat} (h : 33 ≤ c) : isSpaceC c = false := by
  simp only [isSpaceC, Bool.or_eq_false_iff, beq_eq_false_iff_ne, ne_eq]
  omega

/-- A digit code is at least 48 and at most 57. -/
theorem isDigitC_bounds {c : Nat} (h : isDigitC c = true) : 48 ≤ c ∧ c ≤ 57 := by
  simpa [isDigitC] using h

/-- Codes 48 through 57 are digits. -/
theorem isDigitC_of_le {k : Nat} (h : k ≤ 9) : isDigitC (48 + k) = true := by
  simp [isDigitC]; omega

/-- Every month length is at least 28. -/
theorem daysInMonth_ge (y m : Nat) : 28 ≤ daysInMonth y m := by
  unfold daysInMonth
  split
  · split <;> omega
  · split <;> omega

/-- A formatted date is never the empty string. -/
theorem fmtDate_ne_nil (n : Nat) : (fmtDate n).isEmpty = false := by
  simp [fmtDate, pad4]

/-- Reduction of `calculate_due_date` when the result stays in range. -/
theorem calc_due_ok {d w : Nat} (h1 : 7 * w < d) (h2 : d ≤ maxOrdinal) :
    calculate_due_date (some d) w = .ok (some (fmtDate (d - 7 * w))) := by
  have hm : d ≤ 3652059 := h2
  have ht : 7 * w ≤ tdMaxDays := by unfold tdMaxDays; omega
  show (if 7 * w ≤ tdMaxDays then
      if 7 * w < d ∧ d - 7 * w ≤ maxOrdinal then
        Except.ok (some (fmtDate (d - 7 * w)))
      else Except.error ()
    else Except.error ()) = Except.ok (some (fmtDate (d - 7 * w)))
  rw [if_pos ht, if_pos ⟨h1, le_trans (Nat.sub_le d (7 * w)) h2⟩]

/-! ## C1 — due-date computation -/

/-- C1 (counterexample): the claim quantifies over every non-negative
`leadTimeWeeks`, but a lead time whose offset reaches before 0001-01-01
makes the `datetime` subtraction raise `OverflowError` instead of
returning a formatted date: `calculate_due_date(2025-12-01, 200000)`
raises. -/
theorem calculate_due_date_overflow_cex :
    calculate_due_date (some (toOrdinal 2025 12 1)) 200000 = .error () ∧
    ∀ r, calculate_due_date (some (toOrdinal 2025 12 1)) 200000 ≠ .ok r := by
  refine ⟨by decide, fun r h => ?_⟩
  rw [show calculate_due_date (some (toOrdinal 2025 12 1)) 200000 = .error ()
    from by decide] at h
  exact Except.noConfusion h

/-- C1 (amended): `calculateDueDate(null, w) = null` for every `w`; for
every launch date `d` and lead time `w` whose due date stays on or after
0001-01-01, the result is `d - 7*w` days rendered `YYYY-MM-DD` with no
clamping; in particular 2025-12-01 with 12 weeks gives "2025-09-08". -/
theorem calculate_due_date_spec :
    (∀ w, calculate_due_date none w = .ok none) ∧
    (∀ d w, 7 * w < d → d ≤ maxOrdinal →
      calculate_due_date (some d) w = .ok (some (fmtDate (d - 7 * w)))) ∧
    calculate_due_date (some (toOrdinal 2025 12 1)) 12 =
      .ok (some (strToCodes "2025-09-08")) :=
  ⟨fun _ => rfl, fun _ _ h1 h2 => calc_due_ok h1 h2, by decide⟩

/-- C1 (witness): the general statement evaluated at 2025-12-01 and 12
weeks. -/
theorem calculate_due_date_spec_witness :
    calculate_due_date (some (toOrdinal 2025 12 1)) 12 =
      .ok (some (fmtDate (toOrdinal 2025 12 1 - 7 * 12))) :=
  calculate_due_date_spec.2.1 (toOrdinal 2025 12 1) 12 (by decide) (by decide)

/-! ## C4 — group classification -/

/-- C4: `classifyGroup` tests case-insensitive containment in the fixed
order new colors, new styles, end of life, with "SS26 New Colors" as the
default, and the two quoted examples land where the claim says. -/
theorem classify_group_spec :
    classify_group (strToCodes "Misc") = strToCodes "SS26 New Colors" ∧
    classify_group (strToCodes "End of Life batch") =
      strToCodes "End of Life Products" ∧
    (∀ s, occursIn (strToCodes "new colors") (pylower s) = true →
      classify_group s = strToCodes "SS26 New Colors") ∧
    (∀ s, occursIn (strToCodes "new colors") (pylower s) = false →
      occursIn (strToCodes "new styles") (pylower s) = true →
      classify_group s = strToCodes "SS26 New Styles") ∧
    (∀ s, occursIn (strToCodes "new colors") (pylower s) = false →
      occursIn (strToCodes "new styles") (pylower s) = false →
      occursIn (strToCodes "end of life") (pylower s) = true →
      classify_group s = strToCodes "End of Life Products") ∧
    (∀ s, occursIn (strToCodes "new colors") (pylower s) = false →
      occursIn (strToCodes "new styles") (pylower s) = false →
      occursIn (strToCodes "end of life") (pylower s) = false →
      classify_group s = strToCodes "SS26 New Colors") := by
  refine ⟨by decide, by decide, ?_, ?_, ?_, ?_⟩ <;>
    · intro s
      intros
      simp_all [classify_group]

/-- C4 (witness): the first-match rule applied to a concrete title
containing "new colors". -/
theorem classify_group_spec_witness :
    classify_group (strToCodes "SS26 New Colors Wave 2") =
      strToCodes "SS26 New Colors" :=
  classify_group_spec.2.2.1 (strToCodes "SS26 New Colors Wave 2") (by decide)

/-! ## C7 — platform column reconciliation -/

/-- C7: the platform column is found by case-insensitive "platform" title
containment on each board separately; but when the Master board lacks such
a column and an item carries any non-empty column value, the unguarded
`master_platform_col['id']` subscript raises `TypeError`, so the item is
not duplicated — contradicting the documented skip-silently behavior.  The
destination-side guard works: with only the destination lacking a platform
column the item is still planned. -/
theorem platform_guard_typeerror :
    find_platform_col [⟨strToCodes "status", strToCodes "Status"⟩] = none ∧
    process_master_item none none
      ⟨strToCodes "Item A", strToCodes "Misc",
        [(strToCodes "status", strToCodes "Active")]⟩ [] = .error () ∧
    process_master_item (some (strToCodes "platform0")) none
      ⟨strToCodes "Item B", strToCodes "Misc",
        [(strToCodes "platform0", strToCodes "Shopify")]⟩ [] =
      .ok ⟨strToCodes "SS26 New Colors", strToCodes "Item B", [], []⟩ ∧
    find_platform_col [⟨strToCodes "p1", strToCodes "Sales PLATFORM region"⟩] =
      some ⟨strToCodes "p1", strToCodes "Sales PLATFORM region"⟩ := by
  refine ⟨by decide, by decide, by decide, by decide⟩

/-! ## C8 — parse totality -/

/-- C8: the good cases degrade to `None` as claimed, but a digit-only
string one past the Excel serial of 9999-12-31 makes the serial branch
raise `OverflowError` (`except ValueError` does not catch it), refuting
"no input makes it raise". -/
theorem parse_overflow_raises :
    parse_launch_date_gmb (strToCodes "") = .ok none ∧
    parse_launch_date_gmb (strToCodes "   ") = .ok none ∧
    parse_launch_date_gmb (strToCodes "not a date") = .ok none ∧
    parse_launch_date_gmb (strToCodes "2958465") =
      .ok (some (toOrdinal 9999 12 31)) ∧
    parse_launch_date_gmb (strToCodes "2958466") = .error () := by
  refine ⟨by decide, by decide, by decide, by decide, by decide⟩

/-! ## C3 — schedule expansion -/

/-- Reduction of the launch-date branch of the expansion loop when every
lead time keeps its due date in range. -/
theorem build_subitems_go_ok {d : Nat} (hd : d ≤ maxOrdinal) :
    ∀ ts : List Template, (∀ t ∈ ts, 7 * t.lead_time_weeks < d) →
      build_subitems_go d ts = .ok (ts.map fun t =>
        ⟨t.task_name, strToCodes "Working on it",
          some (fmtDate (d - 7 * t.lead_time_weeks))⟩) := by
  intro ts
  induction ts with
  | nil => intro _; rfl
  | cons t rest ih =>
    intro h
    have h1 : 7 * t.lead_time_weeks < d := h t (by simp)
    have h2 := ih (fun x hx => h x (by simp [hx]))
    simp only [build_subitems_go, calc_due_ok h1 hd, h2, fmtDate_ne_nil,
      Bool.false_eq_true, if_false, List.map_cons]

/-- C3 (counterexample): a template whose lead time sends the due date
below 0001-01-01 makes the expansion raise mid-loop, so it does not return
one ScheduledTask per template. -/
theorem expand_schedule_overflow_cex :
    build_subitems (some (toOrdinal 2025 12 1))
      [⟨strToCodes "X", 200000, []⟩] = .error () ∧
    ∀ l, build_subitems (some (toOrdinal 2025 12 1))
      [⟨strToCodes "X", 200000, []⟩] ≠ .ok l := by
  refine ⟨by decide, fun l h => ?_⟩
  rw [show build_subitems (some (toOrdinal 2025 12 1))
    [⟨strToCodes "X", 200000, []⟩] = .error () from by decide] at h
  exact Except.noConfusion h

/-- C3 (amended): with no launch date the expansion emits exactly one
status-only task per template, in order, with no date field; with a launch
date it emits exactly one task per template in template order provided
every lead time keeps its due date on or after 0001-01-01; and the
expansion is a pure function, so two invocations agree definitionally. -/
theorem expand_schedule_spec :
    (∀ ts, build_subitems none ts = .ok (ts.map fun t =>
      ⟨t.task_name, strToCodes "Working on it", none⟩)) ∧
    (∀ d ts, (∀ t ∈ ts, 7 * t.lead_time_weeks < d) → d ≤ maxOrdinal →
      ∃ l, build_subitems (some d) ts = .ok l ∧
        l.length = ts.length ∧
        l.map SubitemSpec.name = ts.map Template.task_name ∧
        ∀ x ∈ l, x.date ≠ none) ∧
    (∀ r ts, build_subitems r ts = build_subitems r ts) := by
  refine ⟨fun _ => rfl, fun d ts h hd => ?_, fun _ _ => rfl⟩
  refine ⟨_, build_subitems_go_ok hd ts h, by simp, by simp, ?_⟩
  intro x hx
  simp only [List.mem_map] at hx
  obtain ⟨t, _, rfl⟩ := hx
  simp

/-- C3 (witness): the in-range branch evaluated for one concrete record
and template. -/
theorem expand_schedule_spec_witness :
    ∃ l, build_subitems (some (toOrdinal 2025 12 1))
        [⟨strToCodes "Fabric Approved", 40, []⟩] = .ok l ∧
      l.length = 1 ∧
      l.map SubitemSpec.name = [strToCodes "Fabric Approved"] ∧
      ∀ x ∈ l, x.date ≠ none := by
  have h := expand_schedule_spec.2.1 (toOrdinal 2025 12 1)
    [⟨strToCodes "Fabric Approved", 40, []⟩]
    (by intro t ht; simp at ht; subst ht; decide) (by decide)
  simpa using h

/-! ## C6 — eligibility of records without a parsable launch date -/

/-- Column extraction never raises when the Master board has a platform
column. -/
theorem extract_cols_some_ok (mid : PyStr) :
    ∀ (cols : List (PyStr × PyStr)) (pv : Option PyStr)
      (acc : List (PyStr × PyStr)),
      ∃ r, extract_cols (some mid) cols pv acc = .ok r := by
  intro cols
  induction cols with
  | nil => exact fun pv acc => ⟨_, rfl⟩
  | cons c rest ih =>
    intro pv acc
    obtain ⟨cid, ctext⟩ := c
    simp only [extract_cols]
    split
    · split
      · exact ih _ _
      · exact ih _ _
    · exact ih _ _

/-- C6 (counterexample): in `generate_department_csv` a record whose
launch date does not parse is skipped entirely — it contributes no rows at
all, not an item without due dates. -/
theorem record_drop_cex :
    (strToCodes "Widget").isEmpty = false ∧
    gen_rows_for_record
      ⟨strToCodes "Widget", [], [], [], [], [], strToCodes "not a date"⟩
      [⟨strToCodes "Fabric Approved", 40, []⟩] = .ok [] := by
  exact ⟨by decide, by decide⟩

/-- C6 (amended): in the board-duplication flow a record whose launch-date
lookup yields nothing is still processed into an item plan carrying one
status-only subitem per template; in the CSV generator such a record is
dropped from the output entirely. -/
theorem no_launch_record_spec :
    (∀ (mid : PyStr) (ppc : Option PyStr) (item : MasterItem)
        (ts : List Template),
      find_launch_date item.column_values = .ok none →
      ∃ plan, process_master_item (some mid) ppc item ts = .ok plan ∧
        plan.name = item.name ∧
        plan.subitems = ts.map fun t =>
          ⟨t.task_name, strToCodes "Working on it", none⟩) ∧
    (∀ row ts, parse_launch_date_gmb row.launch = .ok none →
      gen_rows_for_record row ts = .ok []) := by
  constructor
  · intro mid ppc item ts hfind
    obtain ⟨⟨pv, cvs⟩, hex⟩ :=
      extract_cols_some_ok mid item.column_values none []
    rcases pv with _ | p <;> rcases ppc with _ | pid
    · exact ⟨⟨classify_group item.group_title, item.name, cvs,
        ts.map fun t => ⟨t.task_name, strToCodes "Working on it", none⟩⟩,
        by simp only [process_master_item, hex, hfind, build_subitems],
        rfl, rfl⟩
    · exact ⟨⟨classify_group item.group_title, item.name, cvs,
        ts.map fun t => ⟨t.task_name, strToCodes "Working on it", none⟩⟩,
        by simp only [process_master_item, hex, hfind, build_subitems],
        rfl, rfl⟩
    · exact ⟨⟨classify_group item.group_title, item.name, cvs,
        ts.map fun t => ⟨t.task_name, strToCodes "Working on it", none⟩⟩,
        by simp only [process_master_item, hex, hfind, build_subitems],
        rfl, rfl⟩
    · exact ⟨⟨classify_group item.group_title, item.name,
        (if p.isEmpty then cvs else cvs ++ [(pid, p)]),
        ts.map fun t => ⟨t.task_name, strToCodes "Working on it", none⟩⟩,
        by simp only [process_master_item, hex, hfind, build_subitems],
        rfl, rfl⟩
  · intro row ts hparse
    unfold gen_rows_for_record
    split
    · rfl
    · simp only [hparse]

/-- C6 (witness): the duplication-flow half evaluated on a concrete item
with no launch-date column. -/
theorem no_launch_record_spec_witness :
    ∃ plan, process_master_item (some (strToCodes "p")) none
        ⟨strToCodes "A", strToCodes "Misc", []⟩
        [⟨strToCodes "Fit Approved", 18, []⟩] = .ok plan ∧
      plan.name = strToCodes "A" ∧
      plan.subitems = [⟨strToCodes "Fit Approved",
        strToCodes "Working on it", none⟩] := by
  have h := no_launch_record_spec.1 (strToCodes "p") none
    ⟨strToCodes "A", strToCodes "Misc", []⟩
    [⟨strToCodes "Fit Approved", 18, []⟩] (by decide)
  simpa using h

/-! ## C10 — launch-date column lookup -/

/-- C10 (counterexample): a matching-id column whose text is a digit
string past the representable range raises inside the lookup, aborting the
record instead of moving on to the next column that does parse. -/
theorem launch_lookup_abort_cex :
    find_launch_date
      [(strToCodes "date", strToCodes "2958466"),
       (strToCodes "date2", strToCodes "2025-01-15")] = .error () ∧
    find_launch_date
      [(strToCodes "date", strToCodes "2958466"),
       (strToCodes "date2", strToCodes "2025-01-15")] ≠
      .ok (some (toOrdinal 2025 1 15)) := by
  exact ⟨by decide, by decide⟩

/-- C10 (amended): provided no matching-id column text raises, the launch
date is exactly the first column, in item order, whose id contains
"launch" or "date" (lowercased) and whose text parses; and when the lookup
finds nothing every subitem is created with status only and no due date. -/
theorem launch_lookup_spec :
    (∀ cols, (∀ p ∈ cols, launch_col_match p.1 = true →
        parse_launch_date_dup p.2 ≠ .error ()) →
      find_launch_date cols = .ok (specFirstLaunch cols)) ∧
    (∀ ts, build_subitems none ts = .ok (ts.map fun t =>
      ⟨t.task_name, strToCodes "Working on it", none⟩)) := by
  refine ⟨?_, fun _ => rfl⟩
  intro cols
  induction cols with
  | nil => intro _; rfl
  | cons p rest ih =>
    intro h
    obtain ⟨cid, ctext⟩ := p
    have hrest := ih (fun x hx hm => h x (by simp [hx]) hm)
    by_cases hm : launch_col_match cid = true
    · have hp := h (cid, ctext) (by simp) hm
      rcases he : parse_launch_date_dup ctext with e | od
      · cases e
        exact absurd he hp
      · rcases od with _ | d
        · simp only [find_launch_date, specFirstLaunch, hm, if_true, he,
            List.findSome?_cons]
          simpa [specFirstLaunch] using hrest
        · simp [find_launch_date, specFirstLaunch, hm, he,
            List.findSome?_cons]
    · simp only [Bool.not_eq_true] at hm
      simp only [find_launch_date, specFirstLaunch, hm, Bool.false_eq_true,
        if_false, List.findSome?_cons]
      simpa [specFirstLaunch] using hrest

/-! ## C2 — Excel serial decoding -/

/-- Reduction of the four-format parser on a raw digit-only string within
Excel's representable range. -/
theorem parse_serial_raw_digits_aux {s : PyStr} (hne : s ≠ [])
    (hd : s.all isDigitC = true) (hb : digitsVal s ≤ 2958465) :
    parse_launch_date_gmb s =
      .ok (some (toOrdinal 1899 12 30 + digitsVal s)) := by
  have hsp : ∀ c ∈ s, isSpaceC c = false := by
    intro c hc
    have hcd := isDigitC_bounds (List.all_eq_true.mp hd c hc)
    exact isSpaceC_eq_false (by omega)
  have hstrip : pystrip s = s := pystrip_eq_self hsp
  have hie : s.isEmpty = false := by
    cases s
    · exact absurd rfl hne
    · rfl
  have hdig : py_isdigit s = true := by simp [py_isdigit, hie, hd]
  have hepoch : toOrdinal 1899 12 30 = 693594 := by decide
  unfold parse_launch_date_gmb
  rw [if_neg (by rw [hstrip, hie]; simp), if_pos hdig,
    if_pos (show digitsVal s ≤ tdMaxDays by unfold tdMaxDays; omega),
    if_pos (by rw [hepoch]; unfold maxOrdinal; omega)]

/-- C2 (counterexample): the serial test is `isdigit` on the raw string,
so `" 46062 "` — digit-only after trimming — is not decoded as a serial;
it falls through to the calendar formats and yields `None`. -/
theorem parse_serial_whitespace_cex :
    parse_launch_date_gmb (strToCodes " 46062 ") = .ok none ∧
    parse_launch_date_gmb (strToCodes " 46062 ") ≠
      .ok (some (toOrdinal 1899 12 30 + 46062)) := by
  exact ⟨by decide, by decide⟩

/-- C2 (amended): a string that is digit-only **without trimming** and
denotes a serial within Excel's representable range decodes to
1899-12-30 plus that many days; `"46062"` does, while `" 46062 "` with
surrounding whitespace yields `None`. -/
theorem parse_serial_spec :
    (∀ s : PyStr, s ≠ [] → s.all isDigitC = true → digitsVal s ≤ 2958465 →
      parse_launch_date_gmb s =
        .ok (some (toOrdinal 1899 12 30 + digitsVal s))) ∧
    parse_launch_date_gmb (strToCodes "46062") =
      .ok (some (toOrdinal 1899 12 30 + 46062)) ∧
    parse_launch_date_gmb (strToCodes " 46062 ") = .ok none :=
  ⟨fun _ h1 h2 h3 => parse_serial_raw_digits_aux h1 h2 h3, by decide, by decide⟩

/-- C2 (witness): the universal serial statement evaluated at `"46062"`. -/
theorem parse_serial_spec_witness :
    parse_launch_date_gmb (strToCodes "46062") =
      .ok (some (toOrdinal 1899 12 30 + digitsVal (strToCodes "46062"))) :=
  parse_serial_spec.1 (strToCodes "46062") (by decide) (by decide) (by decide)

/-! ## C5 — format priority and the MM/DD ambiguity -/

/-- Greedy digit reading consumes exactly a digit block of the maximal
length. -/
theorem readDigits_all {k : Nat} :
    ∀ (ds r : PyStr), ds.length = k → (∀ c ∈ ds, isDigitC c = true) →
      readDigits k (ds ++ r) = (ds, r) := by
  induction k with
  | zero =>
    intro ds r h _
    rw [List.length_eq_zero.mp h]
    rfl
  | succ k ih =>
    intro ds r hlen hd
    cases ds with
    | nil => simp at hlen
    | cons c cs =>
      rw [List.cons_append]
      simp only [readDigits, hd c (by simp), if_true,
        ih cs r (by simpa using hlen) (fun x hx => hd x (by simp [hx]))]

/-- Greedy digit reading stops at the first non-digit when the digit block
is shorter than the bound. -/
theorem readDigits_stop {k : Nat} :
    ∀ (ds : PyStr) (x : Nat) (r : PyStr), ds.length ≤ k →
      (∀ c ∈ ds, isDigitC c = true) → isDigitC x = false →
      readDigits k (ds ++ x :: r) = (ds, x :: r) := by
  induction k with
  | zero =>
    intro ds x r h _ _
    rw [List.length_eq_zero.mp (Nat.le_zero.mp h)]
    rfl
  | succ k ih =>
    intro ds x r hlen hd hx
    cases ds with
    | nil => simp [readDigits, hx]
    | cons c cs =>
      rw [List.cons_append]
      have hih := ih cs x r (by simpa using hlen)
        (fun t ht => hd t (by simp [ht])) hx
      simp [readDigits, hd c (by simp), hih]

/-- A numeric field succeeds on a non-empty digit block. -/
theorem parseField_eq {k : Nat} {s ds r : PyStr}
    (h : readDigits k s = (ds, r)) (hne : ds.isEmpty = false) :
    parseField k s = some (digitsVal ds, r) := by
  unfold parseField
  rw [h, hne]
  simp

/-- The two digits of `pad2 n` are digits. -/
theorem pad2_all_digits {n : Nat} (h : n < 100) :
    ∀ c ∈ pad2 n, isDigitC c = true := by
  intro c hc
  simp [pad2] at hc
  rcases hc with rfl | rfl
  · exact isDigitC_of_le (by omega)
  · exact isDigitC_of_le (by omega)

/-- The four digits of `pad4 n` are digits. -/
theorem pad4_all_digits {n : Nat} (h : n < 10000) :
    ∀ c ∈ pad4 n, isDigitC c = true := by
  intro c hc
  simp [pad4] at hc
  rcases hc with rfl | rfl | rfl | rfl
  · exact isDigitC_of_le (by omega)
  · exact isDigitC_of_le (by omega)
  · exact isDigitC_of_le (by omega)
  · exact isDigitC_of_le (by omega)

/-- `pad2` round-trips through `digitsVal`. -/
theorem digitsVal_pad2 {n : Nat} (_h : n < 100) : digitsVal (pad2 n) = n := by
  simp [digitsVal, pad2]
  omega

/-- `pad4` round-trips through `digitsVal`. -/
theorem digitsVal_pad4 {n : Nat} (h : n < 10000) : digitsVal (pad4 n) = n := by
  simp [digitsVal, pad4]
  omega

/-- The `datetime` constructor accepts a day that is at most 12. -/
theorem mkDate_valid {y m d : Nat} (h1 : 1 ≤ y) (h2 : y ≤ 9999) (h3 : 1 ≤ m)
    (h4 : m ≤ 12) (h5 : 1 ≤ d) (h6 : d ≤ 12) :
    mkDate y m d = some (toOrdinal y m d) := by
  unfold mkDate
  rw [if_pos ⟨h1, h2, h3, h4, h5,
    le_trans h6 (le_trans (by norm_num) (daysInMonth_ge y m))⟩]

/-- A two-digit slash date string contains no whitespace. -/
theorem slashStr_no_space {a b y : Nat} :
    ∀ c ∈ slashStr a b y, isSpaceC c = false := by
  intro c hc
  simp [slashStr, pad2, pad4] at hc
  apply isSpaceC_eq_false
  rcases hc with rfl | rfl | rfl | rfl | rfl | rfl | rfl | rfl | rfl | rfl <;>
    omega

/-- A slash date string is not digit-only (the separators are slashes). -/
theorem slashStr_not_digit {a b y : Nat} :
    py_isdigit (slashStr a b y) = false := by
  unfold py_isdigit
  have h : (slashStr a b y).all isDigitC = false := by
    apply List.all_eq_false.mpr
    exact ⟨47, by simp [slashStr, pad2, pad4], by decide⟩
  simp [h]

/-- `%Y-%m-%d` fails on a slash date: the year field stops at the first
slash, which does not match the expected dash. -/
theorem tryYmd_slash {a b y : Nat} (ha : a ≤ 12) :
    tryYmd (slashStr a b y) = none := by
  have hr : readDigits 4 (slashStr a b y) =
      (pad2 a, 47 :: (pad2 b ++ 47 :: pad4 y)) := by
    unfold slashStr
    exact readDigits_stop (pad2 a) 47 (pad2 b ++ 47 :: pad4 y) (by simp [pad2])
      (pad2_all_digits (by omega)) (by decide)
  unfold tryYmd fmtTokensYmd
  rw [show ([.num 4, .lit 45, .num 2, .lit 45, .num 2] : List FTok) =
    .num 4 :: [.lit 45, .num 2, .lit 45, .num 2] from rfl]
  simp only [runToks, parseField_eq hr (by simp [pad2])]
  rw [if_neg (by decide)]
  rfl

/-- `%m/%d/%Y` succeeds on a slash date, reading month then day then
year. -/
theorem tryMdy_slash {a b y : Nat} (ha1 : 1 ≤ a) (ha2 : a ≤ 12)
    (hb1 : 1 ≤ b) (hb2 : b ≤ 12) (hy1 : 1 ≤ y) (hy2 : y ≤ 9999) :
    tryMdy (slashStr a b y) = some (toOrdinal y a b) := by
  have h1 : readDigits 2 (slashStr a b y) =
      (pad2 a, 47 :: (pad2 b ++ 47 :: pad4 y)) := by
    unfold slashStr
    exact readDigits_all (pad2 a) _ (by simp [pad2])
      (pad2_all_digits (by omega))
  have h2 : readDigits 2 (pad2 b ++ 47 :: pad4 y) =
      (pad2 b, 47 :: pad4 y) := by
    exact readDigits_all (pad2 b) _ (by simp [pad2])
      (pad2_all_digits (by omega))
  have h3 : readDigits 4 (pad4 y) = (pad4 y, []) := by
    have := readDigits_all (k := 4) (pad4 y) [] (by simp [pad4])
      (pad4_all_digits (by omega))
    simpa using this
  unfold tryMdy fmtTokensMdy
  simp only [runToks, parseField_eq h1 (by simp [pad2]),
    parseField_eq h2 (by simp [pad2]), parseField_eq h3 (by simp [pad4])]
  rw [digitsVal_pad2 (show a < 100 by omega),
    digitsVal_pad2 (show b < 100 by omega),
    digitsVal_pad4 (show y < 10000 by omega)]
  simp
  exact mkDate_valid hy1 hy2 ha1 ha2 hb1 hb2

/-- C5: on an ambiguous two-digit slash date both four-format parsers
(generate_monday_boards.py and monday_subitem_manager.py) try `%Y-%m-%d`
first, which fails, then `%m/%d/%Y`, which wins — so the date is read
US-style: first field month, second field day. -/
theorem ambiguous_slash_us_style :
    ∀ a b y, 1 ≤ a → a ≤ 12 → 1 ≤ b → b ≤ 12 → 1 ≤ y → y ≤ 9999 →
      parse_launch_date_gmb (slashStr a b y) =
        .ok (some (toOrdinal y a b)) ∧
      parse_launch_date_msm (slashStr a b y) =
        .ok (some (toOrdinal y a b)) := by
  intro a b y ha1 ha2 hb1 hb2 hy1 hy2
  have hstrip : pystrip (slashStr a b y) = slashStr a b y :=
    pystrip_eq_self slashStr_no_space
  have hie : (slashStr a b y).isEmpty = false := by
    unfold slashStr pad2
    rfl
  have hymd : tryYmd (slashStr a b y) = none := tryYmd_slash ha2
  have hmdy : tryMdy (slashStr a b y) = some (toOrdinal y a b) :=
    tryMdy_slash ha1 ha2 hb1 hb2 hy1 hy2
  constructor
  · unfold parse_launch_date_gmb
    rw [if_neg (by rw [hstrip, hie]; simp), if_neg (by
      rw [slashStr_not_digit]; simp), hstrip]
    simp only [firstSuccess, hymd, hmdy]
  · unfold parse_launch_date_msm
    rw [if_neg (by rw [hstrip, hie]; simp), if_neg (by
      rw [slashStr_not_digit]; simp), hstrip]
    simp only [firstSuccess, hymd, hmdy]

/-- C5 (witness): `"03/04/2025"` parses as month 3, day 4 of 2025. -/
theorem ambiguous_slash_us_style_witness :
    parse_launch_date_gmb (strToCodes "03/04/2025") =
      .ok (some (toOrdinal 2025 3 4)) := by
  have h := (ambiguous_slash_us_style 3 4 2025 (by decide) (by decide)
    (by decide) (by decide) (by decide) (by decide)).1
  rw [show slashStr 3 4 2025 = strToCodes "03/04/2025" from by decide] at h
  exact h

/-! ## C9 — extensional equivalence of the parse copies -/

/-- C9: the three three-format copies compute one function and the two
four-format copies compute another; the two functions agree everywhere
except on strings accepted by the trailing `%H:%M:%S` format, which only
the four-format copies parse (the three-format copies return `None`
there), witnessed concretely by `"2025-01-15 12:30:00"`. -/
theorem parse_copies_equivalence :
    parse_launch_date_dup = parse_launch_date_gpd ∧
    parse_launch_date_gpd = parse_launch_date_add ∧
    parse_launch_date_gmb = parse_launch_date_msm ∧
    (∀ s, parse_launch_date_dup s ≠ parse_launch_date_gmb s →
      parse_launch_date_dup s = .ok none ∧
      ∃ d, tryYmdHms (pystrip s) = some d ∧
        parse_launch_date_gmb s = .ok (some d)) ∧
    parse_launch_date_gmb (strToCodes "2025-01-15 12:30:00") =
      .ok (some (toOrdinal 2025 1 15)) ∧
    parse_launch_date_dup (strToCodes "2025-01-15 12:30:00") = .ok none := by
  refine ⟨rfl, rfl, rfl, ?_, by decide, by decide⟩
  intro s hne
  unfold parse_launch_date_dup parse_launch_date_gmb at hne ⊢
  by_cases h1 : (s.isEmpty || (pystrip s).isEmpty) = true
  · rw [if_pos h1, if_pos h1] at hne
    exact absurd rfl hne
  · by_cases h2 : py_isdigit s = true
    · simp only [if_neg h1, if_pos h2] at hne
      exact absurd rfl hne
    · simp only [if_neg h1, if_neg h2] at hne ⊢
      rcases e1 : tryYmd (pystrip s) with _ | d
      · rcases e2 : tryMdy (pystrip s) with _ | d
        · rcases e3 : tryDmy (pystrip s) with _ | d
          · rcases e4 : tryYmdHms (pystrip s) with _ | d
            · exfalso
              apply hne
              simp only [firstSuccess, e1, e2, e3, e4]
            · constructor
              · simp only [firstSuccess, e1, e2, e3]
              · exact ⟨d, rfl, by simp only [firstSuccess, e1, e2, e3, e4]⟩
          · exfalso
            apply hne
            simp only [firstSuccess, e1, e2, e3]
        · exfalso
          apply hne
          simp only [firstSuccess, e1, e2]
      · exfalso
        apply hne
        simp only [firstSuccess, e1]

/-- C9 (witness): the difference characterization applied to the concrete
trailing-time string. -/
theorem parse_copies_equivalence_witness :
    parse_launch_date_dup (strToCodes "2025-01-15 12:30:00") = .ok none ∧
    ∃ d, tryYmdHms (pystrip (strToCodes "2025-01-15 12:30:00")) = some d ∧
      parse_launch_date_gmb (strToCodes "2025-01-15 12:30:00") =
        .ok (some d) := by
  apply parse_copies_equivalence.2.2.2.1
  decide

/-- C10 (witness): the lookup evaluated on an item whose first column does
not match and whose second matches and parses. -/
theorem launch_lookup_spec_witness :
    find_launch_date
      [(strToCodes "status", strToCodes "Active"),
       (strToCodes "launch_date", strToCodes "2025-01-15")] =
      .ok (specFirstLaunch
        [(strToCodes "status", strToCodes "Active"),
         (strToCodes "launch_date", strToCodes "2025-01-15")]) := by
  apply launch_lookup_spec.1
  intro p hp hm
  simp only [List.mem_cons, List.mem_singleton] at hp
  rcases hp with rfl | rfl | h
  · exact absurd hm (by decide)
  · decide
  · cases h

end MondaySeasons
